import Mathlib

/-!
# Verification of the rules-doctor check engine

A shallow embedding of the repository's TypeScript sources
(`src/checker.ts`, `src/index.ts`, `src/types.ts`) and proofs about the
check evaluation, dependency resolution and result aggregation engine.

External collaborators (the JavaScript `RegExp` engine and the HTTP
`fetch` primitive) are modelled as explicit function parameters; all
code of the repository itself is translated directly from the source.
-/

namespace RulesDoctor

/-- `types.ts`: `ExcludeEntry` — a repository excluded from a check. -/
structure ExcludeEntry where
  repository : String
  reason : Option String := none
deriving DecidableEq

/-- `types.ts`: `RequiresEntry` — a check that should be fixed first. -/
structure RequiresEntry where
  check : String
  reason : Option String := none
deriving DecidableEq

/-- `types.ts`: `FileCheck` — one declarative rule. -/
structure FileCheck where
  name : String
  file : String
  pattern : String
  description : Option String := none
  enabled : Option Bool := none
  exclude : Option (List ExcludeEntry) := none
  requires : Option (List RequiresEntry) := none
deriving DecidableEq

/-- `types.ts`: `CheckResult` — outcome of one check on one repository. -/
structure CheckResult where
  repository : String
  check : FileCheck
  filePath : String
  passed : Bool
  error : Option String := none
  requires : Option (List RequiresEntry) := none
deriving DecidableEq

/-- JavaScript `String.prototype.includes`: substring containment. -/
def strIncludes (hay sub : String) : Bool :=
  decide (sub.data <:+: hay.data)

/-- `index.ts` line 65: `pattern.replace(/\|/g, '\\|')` — escape every
pipe character with a backslash. -/
def escapePipes (s : String) : String :=
  String.mk (s.data.foldr (fun c acc => if c = '|' then '\\' :: '|' :: acc else c :: acc) [])

/-- JavaScript `String.prototype.split(sep)` on one-character
separators, at the character-list level. -/
def splitChar (sep : Char) : List Char → List (List Char)
  | [] => [[]]
  | x :: xs =>
    match splitChar sep xs with
    | [] => [[]]
    | g :: gs => if x = sep then [] :: g :: gs else (x :: g) :: gs

/-- JavaScript `s.startsWith('!')`: the first character is `'!'`. -/
def startsWithNeg (s : String) : Bool :=
  match s.data with
  | '!' :: _ => true
  | _ => false

/-- JavaScript `s.slice(1)`: drop the first character. -/
def stripNeg (s : String) : String :=
  String.mk (s.data.drop 1)

/-- Outcome of one HTTP GET as observed by `fetchFileContent`:
a 2xx response with a body, a non-ok response, or a rejected fetch
(stringified as `msg` by JavaScript template interpolation). -/
inductive HttpResponse where
  | ok (body : String)
  | notOk
  | netErr (msg : String)
deriving DecidableEq

/-- The raw-content URL built by `fetchFileContent`. -/
def rawUrl (owner repoName branch filePath : String) : String :=
  "https://raw.githubusercontent.com/" ++ owner ++ "/" ++ repoName ++ "/" ++ branch ++ "/" ++ filePath

/-- `checker.ts` lines 38–63: `fetchFileContent`.  Splits the repository
path, tries the `main` branch then the `master` branch; a file absent on
both yields the wrapped message
`Failed to fetch {file}: Error: File not found: {file}` (the inner
`File not found` error is caught and re-thrown by the outer catch). -/
def fetchFileContent (httpGet : String → HttpResponse) (repoPath filePath : String) :
    Except String String :=
  let parts := (splitChar '/' repoPath.data).map String.mk
  let owner := parts.headD ""
  let repoName := (parts.drop 1).headD ""
  if owner = "" ∨ repoName = "" then
    .error ("Invalid repository format: " ++ repoPath ++ ". Expected \"owner/repo\"")
  else
    match httpGet (rawUrl owner repoName "main" filePath) with
    | .ok body => .ok body
    | .netErr msg => .error ("Failed to fetch " ++ filePath ++ ": " ++ msg)
    | .notOk =>
      match httpGet (rawUrl owner repoName "master" filePath) with
      | .ok body => .ok body
      | .netErr msg => .error ("Failed to fetch " ++ filePath ++ ": " ++ msg)
      | .notOk => .error ("Failed to fetch " ++ filePath ++ ": Error: File not found: " ++ filePath)

/-- `checker.ts` lines 65–71: `runCheck`.  The regular-expression engine
(`new RegExp(pattern); regex.test(content)`) is external to the
repository and is passed in as `regexTest pattern content`, returning
`.error msg` when the pattern is malformed (the thrown `SyntaxError`). -/
def runCheck (regexTest : String → String → Except String Bool) (content : String)
    (check : FileCheck) : Except String Bool :=
  let isNegated := startsWithNeg check.pattern
  let pattern := if isNegated then stripNeg check.pattern else check.pattern
  match regexTest pattern content with
  | .error e => .error e
  | .ok didMatch => .ok (if isNegated then !didMatch else didMatch)

/-- `checker.ts` line 78: the exclusion test
`check.exclude && check.exclude.some(exclude => exclude.repository === repoPath)`. -/
def isExcluded (check : FileCheck) (repoPath : String) : Bool :=
  match check.exclude with
  | none => false
  | some l => l.any (fun e => e.repository == repoPath)

/-- The body of the per-check `try`/`catch` in `checkRepository`
(`checker.ts` lines 82–102): fetch, evaluate, and build the pushed
`CheckResult`; any thrown error becomes a failing result whose `error`
field holds the message. -/
def mkResult (httpGet : String → HttpResponse) (regexTest : String → String → Except String Bool)
    (repoPath : String) (check : FileCheck) : CheckResult :=
  match fetchFileContent httpGet repoPath check.file with
  | .ok content =>
    match runCheck regexTest content check with
    | .ok passed =>
      { repository := repoPath, check := check, filePath := check.file, passed := passed,
        error := none, requires := if passed then none else check.requires }
    | .error e =>
      { repository := repoPath, check := check, filePath := check.file, passed := false,
        error := some e, requires := check.requires }
  | .error e =>
    { repository := repoPath, check := check, filePath := check.file, passed := false,
      error := some e, requires := check.requires }

/-- `checker.ts` lines 73–106: `checkRepository` — loop over the checks,
`continue` on exclusion, otherwise push exactly one result. -/
def checkRepository (httpGet : String → HttpResponse)
    (regexTest : String → String → Except String Bool) (repoPath : String) :
    List FileCheck → List CheckResult
  | [] => []
  | check :: rest =>
    if isExcluded check repoPath then
      checkRepository httpGet regexTest repoPath rest
    else
      mkResult httpGet regexTest repoPath check :: checkRepository httpGet regexTest repoPath rest

/-- `checker.ts` lines 108–121: `checkAllRepositories`.  Note: the source
computes `enabledChecks = checks.filter(check => check.enabled !== false)`
but uses it only in the console log; the unfiltered `checks` list is what
is passed to `checkRepository` on line 116. -/
def checkAllRepositories (httpGet : String → HttpResponse)
    (regexTest : String → String → Except String Bool) (repositories : List String)
    (checks : List FileCheck) : List CheckResult :=
  repositories.flatMap (fun repo => checkRepository httpGet regexTest repo checks)

/-- The status rendered for a failing result (`index.ts` line 58). -/
structure FailureStatus where
  emoji : String
  message : String
deriving DecidableEq

/-- `index.ts` lines 58–67: `getFailureStatus`.  JavaScript
`if (failure.error)` is a truthiness test: an absent *or empty* error
string falls through to the pattern-mismatch branch. -/
def getFailureStatus (failure : CheckResult) : FailureStatus :=
  if failure.error.getD "" ≠ "" then
    let err := failure.error.getD ""
    if strIncludes err "File not found" then
      { emoji := "🤷‍♂️", message := "File not found" }
    else
      { emoji := "❌", message := err }
  else
    { emoji := "🔍", message := "Pattern `" ++ escapePipes failure.check.pattern ++ "` not found" }

/-- `index.ts` lines 69–80: `getFailedRequires`.  Keeps a declared
prerequisite entry when `allResults.find(...)` — the *first* result with
the prerequisite's check name and the failure's repository — exists and
did not pass. -/
def getFailedRequires (failure : CheckResult) (allResults : List CheckResult) :
    List RequiresEntry :=
  match failure.requires with
  | none => []
  | some reqs =>
    reqs.filter (fun req =>
      match allResults.find? (fun r =>
          r.check.name == req.check && r.repository == failure.repository) with
      | some r => !r.passed
      | none => false)

/-- One entry of the grouped report model (`index.ts` lines 45–50). -/
structure ProcessedFailure where
  failure : CheckResult
  repo : String
  status : FailureStatus
  failedRequires : List RequiresEntry
deriving DecidableEq

/-- JavaScript `Map` get: first binding of the key, if any. -/
def lookupA {β : Type} (k : String) : List (String × β) → Option β
  | [] => none
  | (k', v) :: rest => if k' = k then some v else lookupA k rest

/-- JavaScript `Map` set-or-update used by `processResults`:
update the binding of `k` in place, or append a fresh binding
`(k, f dflt)` at the end (insertion order). -/
def updateAssoc {β : Type} (k : String) (dflt : β) (f : β → β) :
    List (String × β) → List (String × β)
  | [] => [(k, f dflt)]
  | (k', v) :: rest =>
    if k' = k then (k', f v) :: rest else (k', v) :: updateAssoc k dflt f rest

/-- The `ProcessedFailure` pushed by `processResults` (`index.ts`
lines 98–103). -/
def mkProcessed (allResults : List CheckResult) (failure : CheckResult) : ProcessedFailure :=
  { failure := failure, repo := failure.repository, status := getFailureStatus failure,
    failedRequires := getFailedRequires failure allResults }

/-- The nested map of `processResults`: check name → repository →
failures, both levels in insertion order as for a JavaScript `Map`. -/
def ByCheck : Type := List (String × List (String × List ProcessedFailure))

/-- One iteration of the loop in `processResults` (`index.ts`
lines 88–104): bucket `failure` by check name, then by repository,
appending at the end of the inner list. -/
def addFailure (allResults : List CheckResult) (acc : ByCheck) (failure : CheckResult) :
    ByCheck :=
  updateAssoc failure.check.name [] (fun repoMap =>
    updateAssoc failure.repository [] (fun l => l ++ [mkProcessed allResults failure]) repoMap) acc

/-- `index.ts` lines 52–56: `GroupedResults`. -/
structure GroupedResults where
  failedCount : Nat
  passedCount : Nat
  byCheck : ByCheck

/-- `index.ts` lines 82–107: `processResults`. -/
def processResults (results : List CheckResult) : GroupedResults :=
  let failedResults := results.filter (fun r => !r.passed)
  { failedCount := failedResults.length,
    passedCount := (results.filter (fun r => r.passed)).length,
    byCheck := failedResults.foldl (addFailure results) [] }

/-- JavaScript `Array.prototype.sort()` on the (distinct) key arrays of
the report: the unique sorted permutation under string order. -/
def sortStrings (l : List String) : List String :=
  List.insertionSort (· ≤ ·) l

/-- The order in which `generateMarkdownReport` (line 135) and
`reportResults` (line 184) emit check sections:
`[...byCheck.keys()].sort()`. -/
def sortedCheckNames (p : GroupedResults) : List String :=
  sortStrings (p.byCheck.map Prod.fst)

/-- The order in which repositories are emitted inside one check section:
`[...repoMap.keys()].sort()` (`index.ts` line 150). -/
def sortedReposFor (p : GroupedResults) (checkName : String) : List String :=
  sortStrings (((lookupA checkName p.byCheck).getD []).map Prod.fst)

/-- The failure rows emitted for one (check, repository) cell:
`repoMap.get(repo)!` iterated in array order (`index.ts` line 152). -/
def rowsFor (p : GroupedResults) (checkName repo : String) : List ProcessedFailure :=
  (lookupA repo ((lookupA checkName p.byCheck).getD [])).getD []

/-- The full sequence of failure rows of the rendered report, in
emission order: sorted check names, sorted repositories within a check,
production order within a repository (`index.ts` lines 135–167). -/
def reportRows (results : List CheckResult) : List (String × String × ProcessedFailure) :=
  let p := processResults results
  (sortedCheckNames p).flatMap (fun checkName =>
    (sortedReposFor p checkName).flatMap (fun repo =>
      (rowsFor p checkName repo).map (fun pf => (checkName, repo, pf))))

/-- `types.ts`: the static repository list section of `Config`. -/
structure ReposSection where
  enabled : Bool
  list : List String
deriving DecidableEq

/-- `types.ts`: the dynamic repository discovery section of `Config`. -/
structure DynamicReposSection where
  enabled : Bool
  source : String
  organization : String
  topic : String
deriving DecidableEq

/-- `types.ts`: `Config`. -/
structure Config where
  repositories : Option ReposSection := none
  dynamicRepositories : Option DynamicReposSection := none
  checks : List FileCheck
deriving DecidableEq

/-- Externally observable events of one run of `main`, in order:
the repository-discovery fetch, a file-content fetch for one
(repository, file) pair, and process exit. -/
inductive Event where
  | discoveryFetch
  | fileFetch (repo file : String)
  | exit (code : Nat)
deriving DecidableEq

/-- `[...new Set(repositories)]` (`index.ts` line 38): order-preserving
deduplication keeping first occurrences. -/
def dedupFirst (l : List String) : List String :=
  l.foldl (fun acc x => if x ∈ acc then acc else acc ++ [x]) []

/-- `index.ts` lines 20–39: `getRepositories`, returning the events it
performs and either the effective repository list or the thrown error.
The discovery fetch itself is external (`fetchBazelContribRepositories`);
its outcome is the `discovery` parameter, and a failure is re-thrown as
`Failed to fetch repositories: {msg}` (`checker.ts` line 34). -/
def getRepositories (discovery : Except String (List String)) (config : Config) :
    List Event × Except String (List String) :=
  let dynEnabled := match config.dynamicRepositories with
    | some d => d.enabled
    | none => false
  if dynEnabled then
    match discovery with
    | .error e => ([Event.discoveryFetch], .error ("Failed to fetch repositories: " ++ e))
    | .ok dyn =>
      let statics := match config.repositories with
        | some r => if r.enabled then r.list else []
        | none => []
      let repositories := dyn ++ statics
      if repositories.isEmpty then
        ([Event.discoveryFetch], .error "No repositories configured. Either provide static repositories or enable dynamic repository fetching.")
      else
        ([Event.discoveryFetch], .ok (dedupFirst repositories))
  else
    let statics := match config.repositories with
      | some r => if r.enabled then r.list else []
      | none => []
    if statics.isEmpty then
      ([], .error "No repositories configured. Either provide static repositories or enable dynamic repository fetching.")
    else
      ([], .ok (dedupFirst statics))

/-- The file-content fetch events of `checkAllRepositories`: one per
(repository, non-excluded check) pair, in evaluation order
(`checker.ts` lines 76–83). -/
def runFetchEvents (repositories : List String) (checks : List FileCheck) : List Event :=
  repositories.flatMap (fun repo =>
    (checks.filter (fun c => !(isExcluded c repo))).map (fun c => Event.fileFetch repo c.file))

/-- `index.ts` lines 208–250: `main`, as the sequence of observable
events of one run.  Configuration loading is assumed successful (the
parsed `config` is a parameter).  The repository list is assembled
*before* the optional check-name argument is validated; an unknown name
exits with code 1, as does any thrown error; otherwise all checks run
and the exit code reflects whether any result failed. -/
def mainTrace (httpGet : String → HttpResponse)
    (regexTest : String → String → Except String Bool)
    (discovery : Except String (List String)) (config : Config)
    (argv2 : Option String) : List Event :=
  let (evs, reposRes) := getRepositories discovery config
  match reposRes with
  | .error _ => evs ++ [Event.exit 1]
  | .ok repositories =>
    match argv2 with
    | some checkName =>
      let filtered := config.checks.filter (fun c => c.name == checkName)
      if filtered.isEmpty then
        evs ++ [Event.exit 1]
      else
        let results := checkAllRepositories httpGet regexTest repositories filtered
        evs ++ runFetchEvents repositories filtered ++
          [Event.exit (if results.any (fun r => !r.passed) then 1 else 0)]
    | none =>
      let results := checkAllRepositories httpGet regexTest repositories config.checks
      evs ++ runFetchEvents repositories config.checks ++
        [Event.exit (if results.any (fun r => !r.passed) then 1 else 0)]

/-! ## Helper lemmas about the check runner -/

/-- `checkRepository` is the per-check result constructor mapped over the
non-excluded checks, in order. -/
theorem checkRepository_eq_filter_map (httpGet : String → HttpResponse)
    (regexTest : String → String → Except String Bool) (repoPath : String)
    (checks : List FileCheck) :
    checkRepository httpGet regexTest repoPath checks =
      (checks.filter (fun c => !(isExcluded c repoPath))).map
        (mkResult httpGet regexTest repoPath) := by
  induction checks with
  | nil => rfl
  | cons c rest ih =>
    cases h : isExcluded c repoPath <;>
      simp [checkRepository, h, ih, List.filter_cons]

/-- Membership in the output of `checkRepository`. -/
theorem mem_checkRepository {httpGet : String → HttpResponse}
    {regexTest : String → String → Except String Bool} {repoPath : String}
    {checks : List FileCheck} {r : CheckResult} :
    r ∈ checkRepository httpGet regexTest repoPath checks ↔
      ∃ c, c ∈ checks ∧ isExcluded c repoPath = false ∧
        r = mkResult httpGet regexTest repoPath c := by
  rw [checkRepository_eq_filter_map]
  simp only [List.mem_map, List.mem_filter, Bool.not_eq_true']
  constructor
  · rintro ⟨c, ⟨hc, hex⟩, rfl⟩
    exact ⟨c, hc, hex, rfl⟩
  · rintro ⟨c, hc, hex, rfl⟩
    exact ⟨c, ⟨hc, hex⟩, rfl⟩

/-- The fixed fields of every constructed result. -/
theorem mkResult_fields (httpGet : String → HttpResponse)
    (regexTest : String → String → Except String Bool) (repoPath : String) (c : FileCheck) :
    (mkResult httpGet regexTest repoPath c).repository = repoPath ∧
    (mkResult httpGet regexTest repoPath c).check = c ∧
    (mkResult httpGet regexTest repoPath c).filePath = c.file := by
  unfold mkResult
  rcases hf : fetchFileContent httpGet repoPath c.file with e | content
  · simp [hf]
  · rcases hr : runCheck regexTest content c with e | passed <;> simp [hf, hr]

/-- Error and prerequisite fields of a constructed result, by pass/fail. -/
theorem mkResult_error_requires (httpGet : String → HttpResponse)
    (regexTest : String → String → Except String Bool) (repoPath : String) (c : FileCheck) :
    ((mkResult httpGet regexTest repoPath c).passed = true →
      (mkResult httpGet regexTest repoPath c).error = none ∧
      (mkResult httpGet regexTest repoPath c).requires = none)
    ∧ ((mkResult httpGet regexTest repoPath c).passed = false →
      (mkResult httpGet regexTest repoPath c).requires = c.requires) := by
  unfold mkResult
  rcases hf : fetchFileContent httpGet repoPath c.file with e | content
  · simp [hf]
  · rcases hr : runCheck regexTest content c with e | passed
    · simp [hf, hr]
    · cases passed <;> simp [hf, hr]

/-! ## Claims -/

/-- **C1** (code-bug evidence).  The claim states that a check with
`enabled = false` never produces a Result, and `types.ts` documents
`enabled` as "When false, this check will be skipped"; but
`checkAllRepositories` passes the *unfiltered* check list to
`checkRepository` (its `enabledChecks` filter feeds only the console
log), so a disabled check does produce a Result. -/
theorem checkAllRepositories_disabled_check_result :
    (checkAllRepositories (fun _ => HttpResponse.ok "content") (fun _ _ => Except.ok true)
        ["acme/widgets"]
        [{ name := "disabled-check", file := "F", pattern := "x",
           enabled := some false }]).length = 1
    ∧ ∀ r ∈ checkAllRepositories (fun _ => HttpResponse.ok "content")
        (fun _ _ => Except.ok true) ["acme/widgets"]
        [{ name := "disabled-check", file := "F", pattern := "x", enabled := some false }],
        r.check.enabled = some false := by
  decide

/-- **C2**.  For every content string and pattern: with a leading `!`
the evaluator strips the marker and succeeds iff the remaining pattern
does not match; without it, the evaluator succeeds iff the pattern
matches.  The regular-expression engine is the abstract `regexTest`
collaborator. -/
theorem runCheck_negation_semantics (regexTest : String → String → Except String Bool)
    (content : String) (check : FileCheck) (m : Bool) :
    (startsWithNeg check.pattern = true →
      regexTest (stripNeg check.pattern) content = .ok m →
      (runCheck regexTest content check = .ok true ↔ m = false))
    ∧ (startsWithNeg check.pattern = false →
      regexTest check.pattern content = .ok m →
      (runCheck regexTest content check = .ok true ↔ m = true)) := by
  constructor
  · intro hneg hok
    cases m <;> simp [runCheck, hneg, hok]
  · intro hpos hok
    cases m <;> simp [runCheck, hpos, hok]

/-- Witness for **C2**: the spec's `no-todo` scenario with a content
that contains no `TODO`, evaluated on a concrete matcher. -/
theorem runCheck_negation_semantics_witness :
    runCheck (fun p c => Except.ok (strIncludes c p)) "all done here"
      { name := "no-todo", file := "README.md", pattern := "!TODO" } = Except.ok true := by
  have h := (runCheck_negation_semantics (fun p c => Except.ok (strIncludes c p))
    "all done here" { name := "no-todo", file := "README.md", pattern := "!TODO" }
    (strIncludes "all done here" "TODO")).1 (by decide) rfl
  exact h.mpr (by decide)

/-- **C5**.  No result is ever produced for an excluded
(repository, check) pair: every result of `checkRepository` — and hence
of `checkAllRepositories` — has a check that does not exclude the
result's repository. -/
theorem excluded_pair_no_result (httpGet : String → HttpResponse)
    (regexTest : String → String → Except String Bool) (checks : List FileCheck) :
    (∀ repoPath r, r ∈ checkRepository httpGet regexTest repoPath checks →
      isExcluded r.check r.repository = false)
    ∧ ∀ repositories r, r ∈ checkAllRepositories httpGet regexTest repositories checks →
      isExcluded r.check r.repository = false := by
  have key : ∀ repoPath r, r ∈ checkRepository httpGet regexTest repoPath checks →
      isExcluded r.check r.repository = false := by
    intro repoPath r hr
    obtain ⟨c, _, hex, rfl⟩ := mem_checkRepository.mp hr
    obtain ⟨hrep, hchk, -⟩ := mkResult_fields httpGet regexTest repoPath c
    rw [hchk, hrep]
    exact hex
  refine ⟨key, ?_⟩
  intro repositories r hr
  simp only [checkAllRepositories, List.mem_flatMap] at hr
  obtain ⟨repo, -, hmem⟩ := hr
  exact key repo r hmem

/-- Witness for **C5**: a concrete run whose single result's check
excludes a different repository. -/
theorem excluded_pair_no_result_witness :
    isExcluded
      ({ repository := "a/b",
         check := { name := "n", file := "F", pattern := "p",
                    exclude := some [{ repository := "x/y" }] },
         filePath := "F", passed := true } : CheckResult).check
      ({ repository := "a/b",
         check := { name := "n", file := "F", pattern := "p",
                    exclude := some [{ repository := "x/y" }] },
         filePath := "F", passed := true } : CheckResult).repository = false :=
  (excluded_pair_no_result (fun _ => HttpResponse.ok "body") (fun _ _ => Except.ok true)
    [{ name := "n", file := "F", pattern := "p",
       exclude := some [{ repository := "x/y" }] }]).1 "a/b" _ (by decide)

/-- **C6**.  Every result of the check runner carries the check's
declared prerequisite list exactly when it failed: a passing result has
no error and no prerequisites, and a failing result's `requires` is the
check's `requires` verbatim. -/
theorem result_requires_iff_failed (httpGet : String → HttpResponse)
    (regexTest : String → String → Except String Bool) (repoPath : String)
    (checks : List FileCheck) (r : CheckResult)
    (hr : r ∈ checkRepository httpGet regexTest repoPath checks) :
    (r.passed = true → r.error = none ∧ r.requires = none)
    ∧ (r.passed = false → r.requires = r.check.requires) := by
  obtain ⟨c, -, -, rfl⟩ := mem_checkRepository.mp hr
  obtain ⟨h₁, h₂⟩ := mkResult_error_requires httpGet regexTest repoPath c
  obtain ⟨-, hchk, -⟩ := mkResult_fields httpGet regexTest repoPath c
  exact ⟨h₁, fun hp => (h₂ hp).trans (by rw [hchk])⟩

/-- Witness for **C6**: a failing fetch copies the check's declared
prerequisites onto the result. -/
theorem result_requires_iff_failed_witness :
    ({ repository := "acme/widgets",
       check := { name := "has-license", file := "LICENSE", pattern := "MIT",
                  requires := some [{ check := "has-readme" }] },
       filePath := "LICENSE", passed := false,
       error := some "Failed to fetch LICENSE: Error: File not found: LICENSE",
       requires := some [{ check := "has-readme" }] } : CheckResult).requires =
      ({ repository := "acme/widgets",
         check := { name := "has-license", file := "LICENSE", pattern := "MIT",
                    requires := some [{ check := "has-readme" }] },
         filePath := "LICENSE", passed := false,
         error := some "Failed to fetch LICENSE: Error: File not found: LICENSE",
         requires := some [{ check := "has-readme" }] } : CheckResult).check.requires :=
  (result_requires_iff_failed (fun _ => HttpResponse.notOk) (fun _ _ => Except.ok true)
    "acme/widgets"
    [{ name := "has-license", file := "LICENSE", pattern := "MIT",
       requires := some [{ check := "has-readme" }] }] _ (by decide)).2 (by decide)

/-- **C9**.  A fetch failure or a malformed pattern never aborts the
run: `checkRepository` emits exactly one result per non-excluded check,
and when fetch or evaluation raises, that check's result is present,
failing, and carries the raised message as its error. -/
theorem checkRepository_one_result_per_check (httpGet : String → HttpResponse)
    (regexTest : String → String → Except String Bool) (repoPath : String)
    (checks : List FileCheck) :
    (checkRepository httpGet regexTest repoPath checks).length =
      (checks.filter (fun c => !(isExcluded c repoPath))).length
    ∧ ∀ c ∈ checks, isExcluded c repoPath = false →
      ∀ e, (fetchFileContent httpGet repoPath c.file = .error e ∨
          (∃ content, fetchFileContent httpGet repoPath c.file = .ok content ∧
            runCheck regexTest content c = .error e)) →
        mkResult httpGet regexTest repoPath c ∈ checkRepository httpGet regexTest repoPath checks
        ∧ (mkResult httpGet regexTest repoPath c).passed = false
        ∧ (mkResult httpGet regexTest repoPath c).error = some e := by
  constructor
  · rw [checkRepository_eq_filter_map, List.length_map]
  · intro c hc hex e he
    refine ⟨mem_checkRepository.mpr ⟨c, hc, hex, rfl⟩, ?_⟩
    unfold mkResult
    rcases he with hf | ⟨content, hf, hrc⟩
    · simp [hf]
    · simp [hf, hrc]

/-- Witness for **C9**: a repository whose file is absent on both
branches still yields its one failing result, with the wrapped fetch
error recorded. -/
theorem checkRepository_one_result_per_check_witness :
    mkResult (fun _ => HttpResponse.notOk) (fun _ _ => Except.ok true) "a/b"
        { name := "n", file := "F", pattern := "p" } ∈
      checkRepository (fun _ => HttpResponse.notOk) (fun _ _ => Except.ok true) "a/b"
        [{ name := "n", file := "F", pattern := "p" }]
    ∧ (mkResult (fun _ => HttpResponse.notOk) (fun _ _ => Except.ok true) "a/b"
        { name := "n", file := "F", pattern := "p" }).passed = false
    ∧ (mkResult (fun _ => HttpResponse.notOk) (fun _ _ => Except.ok true) "a/b"
        { name := "n", file := "F", pattern := "p" }).error =
        some "Failed to fetch F: Error: File not found: F" :=
  (checkRepository_one_result_per_check (fun _ => HttpResponse.notOk)
    (fun _ _ => Except.ok true) "a/b" [{ name := "n", file := "F", pattern := "p" }]).2
    { name := "n", file := "F", pattern := "p" } (by decide) (by decide)
    "Failed to fetch F: Error: File not found: F" (Or.inl rfl)

/-- **C10**.  The resolved failed-prerequisites list is an
order-preserving sublist of the declared prerequisite list: resolution
never reorders, duplicates, or invents entries, and keeps each retained
entry (with its reason) verbatim. -/
theorem getFailedRequires_sublist (failure : CheckResult) (allResults : List CheckResult) :
    (getFailedRequires failure allResults).Sublist (failure.requires.getD []) := by
  cases h : failure.requires with
  | none => simp [getFailedRequires, h]
  | some reqs =>
    simp only [getFailedRequires, h, Option.getD_some]
    exact List.filter_sublist reqs

/-- **C3** (counterexample).  The claim says a prerequisite entry is
kept iff *some* Result with the same repository and check name has
`passed = false`.  With two Results for the pair `("o/r", "A")` — a
passing one first, a failing one second — such a failing Result exists,
yet `getFailedRequires` keeps nothing, because `allResults.find(...)`
inspects only the *first* match. -/
theorem getFailedRequires_exists_failing_counterexample :
    getFailedRequires
      { repository := "o/r",
        check := { name := "B", file := "fb", pattern := "pb",
                   requires := some [{ check := "A" }] },
        filePath := "fb", passed := false, requires := some [{ check := "A" }] }
      [{ repository := "o/r", check := { name := "A", file := "fa", pattern := "pa" },
         filePath := "fa", passed := true },
       { repository := "o/r", check := { name := "A", file := "fa", pattern := "pa" },
         filePath := "fa", passed := false }] = []
    ∧ ∃ r ∈ [({ repository := "o/r", check := { name := "A", file := "fa", pattern := "pa" },
                filePath := "fa", passed := true } : CheckResult),
              { repository := "o/r", check := { name := "A", file := "fa", pattern := "pa" },
                filePath := "fa", passed := false }],
        r.repository = "o/r" ∧ r.check.name = "A" ∧ r.passed = false := by
  decide

/-- **C3** (amended).  The resolved failed-prerequisites list contains
exactly those declared entries whose *first* matching Result (same
repository, check name equal to the prerequisite name) exists and has
`passed = false`; an entry with no matching Result at all is omitted,
not treated as failed. -/
theorem getFailedRequires_first_match_spec (failure : CheckResult)
    (allResults : List CheckResult) (req : RequiresEntry) :
    (req ∈ getFailedRequires failure allResults ↔
      req ∈ failure.requires.getD [] ∧
      ∃ r, allResults.find? (fun x =>
          x.check.name == req.check && x.repository == failure.repository) = some r
        ∧ r.passed = false)
    ∧ ((∀ r ∈ allResults, ¬(r.check.name = req.check ∧ r.repository = failure.repository)) →
      req ∉ getFailedRequires failure allResults) := by
  have hmain : req ∈ getFailedRequires failure allResults ↔
      req ∈ failure.requires.getD [] ∧
      ∃ r, allResults.find? (fun x =>
          x.check.name == req.check && x.repository == failure.repository) = some r
        ∧ r.passed = false := by
    cases h : failure.requires with
    | none => simp [getFailedRequires, h]
    | some reqs =>
      simp only [getFailedRequires, h, Option.getD_some, List.mem_filter]
      refine and_congr_right fun _ => ?_
      rcases hf : allResults.find? (fun x =>
          x.check.name == req.check && x.repository == failure.repository) with - | r
      · simp [hf]
      · simp [hf, Bool.not_eq_true']
  refine ⟨hmain, fun hno => ?_⟩
  rw [hmain]
  rintro ⟨-, r, hfind, -⟩
  have hp := List.find?_some hfind
  have hrmem := List.mem_of_find?_eq_some hfind
  rw [Bool.and_eq_true, beq_iff_eq, beq_iff_eq] at hp
  exact hno r hrmem hp

/-- Witness for the amended **C3**: against an empty result set, a
declared prerequisite is omitted. -/
theorem getFailedRequires_first_match_spec_witness :
    ({ check := "A" } : RequiresEntry) ∉ getFailedRequires
      { repository := "o/r", check := { name := "B", file := "fb", pattern := "pb" },
        filePath := "fb", passed := false, requires := some [{ check := "A" }] } [] :=
  (getFailedRequires_first_match_spec
    { repository := "o/r", check := { name := "B", file := "fb", pattern := "pb" },
      filePath := "fb", passed := false, requires := some [{ check := "A" }] }
    [] { check := "A" }).2 (by simp)

/-! ## Helper lemmas about failure classification -/

/-- The wrapped message of a file absent on both branches contains the
substring `File not found`, whatever the file path. -/
theorem strIncludes_fileNotFound (fp : String) :
    strIncludes ("Failed to fetch " ++ fp ++ ": Error: File not found: " ++ fp)
      "File not found" = true := by
  unfold strIncludes
  simp only [decide_eq_true_eq, String.data_append]
  refine ⟨("Failed to fetch " : String).data ++ fp.data ++ (": Error: " : String).data,
    (": " : String).data ++ fp.data, ?_⟩
  simp [List.append_assoc]

/-- The wrapped message of a file absent on both branches is not the
empty string (so it survives the JavaScript truthiness test). -/
theorem fetch_error_message_ne_empty (fp : String) :
    ("Failed to fetch " ++ fp ++ ": Error: File not found: " ++ fp) ≠ "" := by
  intro h
  have hd := congrArg String.data h
  rw [show ("" : String).data = [] from rfl] at hd
  simp only [String.data_append, List.append_eq_nil] at hd
  exact absurd hd.1.1.1 (by decide)

/-- A file absent on both branches (every HTTP GET returns non-ok)
yields the wrapped `File not found` fetch error, for any well-formed
repository path. -/
theorem fetchFileContent_both_absent (httpGet : String → HttpResponse)
    (repoPath filePath : String)
    (howner : ((splitChar '/' repoPath.data).map String.mk).headD "" ≠ "")
    (hrepo : (((splitChar '/' repoPath.data).map String.mk).drop 1).headD "" ≠ "")
    (hall : ∀ url, httpGet url = HttpResponse.notOk) :
    fetchFileContent httpGet repoPath filePath =
      .error ("Failed to fetch " ++ filePath ++ ": Error: File not found: " ++ filePath) := by
  have hcond : ¬(((splitChar '/' repoPath.data).map String.mk).headD "" = "" ∨
      (((splitChar '/' repoPath.data).map String.mk).drop 1).headD "" = "") := by
    rintro (h | h)
    · exact howner h
    · exact hrepo h
  unfold fetchFileContent
  simp only [hall]
  rw [if_neg hcond]

/-- **C8** (counterexample).  The claim's second case says that
whenever `error` is set and does not indicate an absent file, the
status carries the error text.  A Result with `error` set to the empty
string falls through JavaScript's `if (failure.error)` truthiness test
and is classified as a pattern mismatch instead. -/
theorem getFailureStatus_empty_error_counterexample :
    ({ repository := "o/r", check := { name := "c", file := "f", pattern := "p" },
       filePath := "f", passed := false, error := some "" } : CheckResult).error = some ""
    ∧ strIncludes "" "File not found" = false
    ∧ getFailureStatus
        { repository := "o/r", check := { name := "c", file := "f", pattern := "p" },
          filePath := "f", passed := false, error := some "" } =
        { emoji := "🔍", message := "Pattern `p` not found" } := by
  decide

/-- **C8** (amended).  For every failed Result the classification is a
three-way split on a *non-empty* error: a non-empty error whose text
contains `File not found` classifies as "not found"; any other
non-empty error carries the error text; an unset — or empty — error
classifies as "pattern not matched" carrying the check's pattern with
`|` escaped.  And a file absent on both attempted branches yields a
Result classified as "not found". -/
theorem getFailureStatus_classification :
    (∀ (r : CheckResult) (err : String), r.error = some err → err ≠ "" →
      strIncludes err "File not found" = true →
      getFailureStatus r = { emoji := "🤷‍♂️", message := "File not found" })
    ∧ (∀ (r : CheckResult) (err : String), r.error = some err → err ≠ "" →
      strIncludes err "File not found" = false →
      getFailureStatus r = { emoji := "❌", message := err })
    ∧ (∀ r : CheckResult, r.error = none ∨ r.error = some "" →
      getFailureStatus r =
        { emoji := "🔍",
          message := "Pattern `" ++ escapePipes r.check.pattern ++ "` not found" })
    ∧ ∀ (httpGet : String → HttpResponse) (regexTest : String → String → Except String Bool)
        (repoPath : String) (check : FileCheck),
        ((splitChar '/' repoPath.data).map String.mk).headD "" ≠ "" →
        (((splitChar '/' repoPath.data).map String.mk).drop 1).headD "" ≠ "" →
        (∀ url, httpGet url = HttpResponse.notOk) →
        isExcluded check repoPath = false →
        checkRepository httpGet regexTest repoPath [check] =
          [{ repository := repoPath, check := check, filePath := check.file, passed := false,
             error := some ("Failed to fetch " ++ check.file ++ ": Error: File not found: " ++
               check.file),
             requires := check.requires }]
        ∧ (getFailureStatus
            { repository := repoPath, check := check, filePath := check.file, passed := false,
              error := some ("Failed to fetch " ++ check.file ++ ": Error: File not found: " ++
                check.file),
              requires := check.requires }).message = "File not found" := by
  refine ⟨?_, ?_, ?_, ?_⟩
  · intro r err herr hne hinc
    simp [getFailureStatus, herr, hne, hinc]
  · intro r err herr hne hinc
    simp [getFailureStatus, herr, hne, hinc]
  · rintro r (h | h) <;> simp [getFailureStatus, h]
  · intro httpGet regexTest repoPath check howner hrepo hall hex
    have hf := fetchFileContent_both_absent httpGet repoPath check.file howner hrepo hall
    constructor
    · simp [checkRepository, hex, mkResult, hf]
    · have h1 := fetch_error_message_ne_empty check.file
      have h2 := strIncludes_fileNotFound check.file
      simp [getFailureStatus, h1, h2]

/-- Witness for the amended **C8**: the spec's `acme/empty` scenario —
the wrapped both-branches-absent fetch error is classified as
"File not found". -/
theorem getFailureStatus_classification_witness :
    getFailureStatus
      { repository := "acme/empty",
        check := { name := "has-license", file := "LICENSE", pattern := ".*" },
        filePath := "LICENSE", passed := false,
        error := some "Failed to fetch LICENSE: Error: File not found: LICENSE" } =
      { emoji := "🤷‍♂️", message := "File not found" } :=
  getFailureStatus_classification.1
    { repository := "acme/empty",
      check := { name := "has-license", file := "LICENSE", pattern := ".*" },
      filePath := "LICENSE", passed := false,
      error := some "Failed to fetch LICENSE: Error: File not found: LICENSE" }
    "Failed to fetch LICENSE: Error: File not found: LICENSE" rfl (by decide) (by decide)

/-- The events performed by `getRepositories` are at most the single
repository-discovery fetch — never a file-content fetch or an exit. -/
theorem getRepositories_events (discovery : Except String (List String)) (config : Config) :
    (getRepositories discovery config).1 = [] ∨
    (getRepositories discovery config).1 = [Event.discoveryFetch] := by
  unfold getRepositories
  rcases hdyn : config.dynamicRepositories with - | d
  · simp [hdyn,
      apply_ite (Prod.fst : List Event × Except String (List String) → List Event)]
  · cases hd : d.enabled
    · simp [hdyn, hd,
        apply_ite (Prod.fst : List Event × Except String (List String) → List Event)]
    · rcases discovery with e | l <;>
        simp [hdyn, hd,
          apply_ite (Prod.fst : List Event × Except String (List String) → List Event)]

/-- **C4** (counterexample).  With dynamic repository discovery enabled
and a CLI argument naming no configured check, the run does exit with
code 1 without any file-content fetch, but the repository-discovery
fetch has already happened: `main` assembles the repository list before
validating the check name.  The claim says no repository-discovery
fetch is performed in such a run. -/
theorem unknown_check_discovery_fetch_counterexample :
    (({ repositories := none,
        dynamicRepositories := some { enabled := true, source := "github",
                                      organization := "bazel-contrib", topic := "aspect-build" },
        checks := [{ name := "has-license", file := "LICENSE", pattern := ".*" }] } :
          Config).checks.filter (fun c => c.name == "nope")).isEmpty = true
    ∧ mainTrace (fun _ => HttpResponse.notOk) (fun _ _ => Except.ok true)
        (Except.ok ["bazel-contrib/rules-x"])
        { repositories := none,
          dynamicRepositories := some { enabled := true, source := "github",
                                        organization := "bazel-contrib", topic := "aspect-build" },
          checks := [{ name := "has-license", file := "LICENSE", pattern := ".*" }] }
        (some "nope") = [Event.discoveryFetch, Event.exit 1] := by
  decide

/-- **C4** (amended).  When the optional CLI argument names a check
matching no configured check, the run exits with code 1 before any
*file-content* fetch; a repository-discovery fetch may already have
been performed, because the repository list is assembled before the
check name is validated. -/
theorem unknown_check_name_no_file_fetch (httpGet : String → HttpResponse)
    (regexTest : String → String → Except String Bool)
    (discovery : Except String (List String)) (config : Config) (name : String)
    (hname : (config.checks.filter (fun c => c.name == name)).isEmpty = true) :
    (∀ repo file,
      Event.fileFetch repo file ∉ mainTrace httpGet regexTest discovery config (some name))
    ∧ (mainTrace httpGet regexTest discovery config (some name)).getLast? =
        some (Event.exit 1) := by
  have hevs := getRepositories_events discovery config
  unfold mainTrace
  rcases hgr : getRepositories discovery config with ⟨evs, reposRes⟩
  rw [hgr] at hevs
  simp only at hevs
  simp only [hgr]
  rcases reposRes with e | repositories
  · constructor
    · intro repo file hmem
      rcases hevs with h | h <;> rw [h] at hmem <;> simp at hmem
    · rcases hevs with h | h <;> rw [h] <;> simp
  · simp only [hname, ite_true]
    constructor
    · intro repo file hmem
      rcases hevs with h | h <;> rw [h] at hmem <;> simp at hmem
    · rcases hevs with h | h <;> rw [h] <;> simp

/-- Witness for the amended **C4**: a concrete run with a static
repository list and an unknown check name ends in exit code 1. -/
theorem unknown_check_name_no_file_fetch_witness :
    (mainTrace (fun _ => HttpResponse.notOk) (fun _ _ => Except.ok true)
      (Except.ok [])
      { repositories := some { enabled := true, list := ["o/r"] },
        dynamicRepositories := none,
        checks := [{ name := "a", file := "F", pattern := "p" }] }
      (some "nope")).getLast? = some (Event.exit 1) :=
  (unknown_check_name_no_file_fetch (fun _ => HttpResponse.notOk) (fun _ _ => Except.ok true)
    (Except.ok [])
    { repositories := some { enabled := true, list := ["o/r"] },
      dynamicRepositories := none,
      checks := [{ name := "a", file := "F", pattern := "p" }] }
    "nope" (by decide)).2

/-! ## Helper lemmas about the grouped report model -/

/-- Looking up the key just updated by `updateAssoc`. -/
theorem lookupA_updateAssoc_self {β : Type} (k : String) (d : β) (f : β → β)
    (m : List (String × β)) :
    lookupA k (updateAssoc k d f m) = some (f ((lookupA k m).getD d)) := by
  induction m with
  | nil => simp [lookupA, updateAssoc]
  | cons kv rest ih =>
    obtain ⟨k', v⟩ := kv
    by_cases h : k' = k
    · simp [lookupA, updateAssoc, h]
    · simp [lookupA, updateAssoc, h, ih]

/-- Looking up any other key is unaffected by `updateAssoc`. -/
theorem lookupA_updateAssoc_ne {β : Type} {k q : String} (h : q ≠ k) (d : β) (f : β → β)
    (m : List (String × β)) :
    lookupA q (updateAssoc k d f m) = lookupA q m := by
  induction m with
  | nil => simp [lookupA, updateAssoc, Ne.symm h]
  | cons kv rest ih =>
    obtain ⟨k', v⟩ := kv
    by_cases h2 : k' = k
    · subst h2
      simp [lookupA, updateAssoc, Ne.symm h]
    · by_cases h3 : k' = q <;> simp [lookupA, updateAssoc, h2, h3, h, ih]

/-- Bucketing one failure touches exactly its (check name, repository)
cell, appending the processed failure at the end. -/
theorem bucket_addFailure (allResults : List CheckResult) (acc : ByCheck) (r : CheckResult)
    (c rep : String) :
    (lookupA rep ((lookupA c (addFailure allResults acc r)).getD [])).getD [] =
      (lookupA rep ((lookupA c acc).getD [])).getD [] ++
        (if r.check.name = c ∧ r.repository = rep then [mkProcessed allResults r] else []) := by
  unfold addFailure
  by_cases h1 : r.check.name = c
  · rw [h1, lookupA_updateAssoc_self]
    simp only [Option.getD_some]
    by_cases h2 : r.repository = rep
    · rw [h2, lookupA_updateAssoc_self]
      simp [h1, h2]
    · rw [lookupA_updateAssoc_ne (Ne.symm h2)]
      simp [h1, h2]
  · rw [lookupA_updateAssoc_ne (Ne.symm h1)]
    simp [h1]

/-- The cell of a (check name, repository) pair after folding a list of
failures into the grouped model: the previous cell contents followed by
the matching failures in list order. -/
theorem bucket_foldl (allResults : List CheckResult) (l : List CheckResult) (acc : ByCheck)
    (c rep : String) :
    (lookupA rep ((lookupA c (l.foldl (addFailure allResults) acc)).getD [])).getD [] =
      (lookupA rep ((lookupA c acc).getD [])).getD [] ++
        (l.filter (fun x => x.check.name == c && x.repository == rep)).map
          (mkProcessed allResults) := by
  induction l generalizing acc with
  | nil => simp
  | cons r rest ih =>
    rw [List.foldl_cons, ih, bucket_addFailure]
    by_cases h1 : r.check.name = c <;> by_cases h2 : r.repository = rep <;>
      simp [List.filter_cons, h1, h2, List.append_assoc]

/-- **C7**.  Report ordering: the emitted check names are sorted; within
a check, the emitted repository identifiers are sorted; within a
(check, repository) cell, the rows are exactly the failing results with
that check name and repository, in the order the results were produced.
Determinism across runs with identical inputs is immediate because
`reportRows` is a pure function of the result list. -/
theorem report_ordering (results : List CheckResult) :
    (sortedCheckNames (processResults results)).Sorted (· ≤ ·)
    ∧ (∀ c, (sortedReposFor (processResults results) c).Sorted (· ≤ ·))
    ∧ ∀ c rep, rowsFor (processResults results) c rep =
        ((results.filter (fun x => !x.passed)).filter
          (fun x => x.check.name == c && x.repository == rep)).map
          (mkProcessed results) := by
  refine ⟨?_, ?_, ?_⟩
  · unfold sortedCheckNames sortStrings
    exact List.sorted_insertionSort _ _
  · intro c
    unfold sortedReposFor sortStrings
    exact List.sorted_insertionSort _ _
  · intro c rep
    unfold rowsFor processResults
    simp only
    rw [bucket_foldl]
    simp [lookupA]

end RulesDoctor
